import Mathlib

/-!
Shallow embedding of `src/resources/vectors.rs` (yeti-vectors).

The Rust file implements a field-mapping-driven vectorization engine:
`vectorize_fields` / `vectorize_fields_batch` read fields of dynamically
typed JSON records, invoke text or image embedding models, and write the
resulting vectors back under target field names; `get_or_init_text_model`
and `get_or_init_image_model` maintain caches of lazily constructed model
handles keyed by model-identifier strings.

Modelling choices:
- `serde_json::Value` becomes the inductive `Json`; objects are association
  lists with `serde_json`-style insert (overwrite existing key in place,
  append otherwise).
- The external `fastembed` encoders are oracles (`EmbedOracle`): pure
  functions supplied as parameters, exactly at the call boundary where the
  Rust code calls `TextEmbedding::embed` / `ImageEmbedding::embed_bytes`.
  Mutex acquisition is modelled as always succeeding (the sequential
  embedding has no concurrent holder, so the lock can never be poisoned).
- The process-global `DashMap` caches become an explicit cache state
  threaded through `get_or_init_text_model` / `get_or_init_image_model`;
  the third component of the result records whether a construction attempt
  (`try_new`) was made during the call.
- `f32` embedding scalars become `Rat` (the code never computes with them,
  it only moves them around); bytes become `Nat`.
- The `base64` crate's `general_purpose::STANDARD` engine (canonical
  padding required) is modelled by `base64_decode`.
-/

/-- fastembed::EmbeddingModel — the text-model kinds named in `parse_text_model`. -/
inductive EmbeddingModel where
  | BGESmallENV15
  | BGEBaseENV15
  | BGELargeENV15
  | AllMiniLML6V2
deriving DecidableEq, Repr

/-- fastembed::ImageEmbeddingModel — the image-model kinds named in `parse_image_model`. -/
inductive ImageEmbeddingModel where
  | ClipVitB32
deriving DecidableEq, Repr

/-- `parse_text_model` (vectors.rs lines 87-98): exact-match alias table with
a logged default of `BGESmallENV15` on no match (the `eprintln` diagnostic is
a side effect outside the value-level model). -/
def parse_text_model (name : String) : EmbeddingModel :=
  if name = "BAAI/bge-small-en-v1.5" ∨ name = "bge-small-en-v1.5" then
    EmbeddingModel.BGESmallENV15
  else if name = "BAAI/bge-base-en-v1.5" ∨ name = "bge-base-en-v1.5" then
    EmbeddingModel.BGEBaseENV15
  else if name = "BAAI/bge-large-en-v1.5" ∨ name = "bge-large-en-v1.5" then
    EmbeddingModel.BGELargeENV15
  else if name = "sentence-transformers/all-MiniLM-L6-v2" ∨ name = "all-MiniLM-L6-v2" then
    EmbeddingModel.AllMiniLML6V2
  else
    EmbeddingModel.BGESmallENV15

/-- `parse_image_model` (vectors.rs lines 100-108). -/
def parse_image_model (name : String) : ImageEmbeddingModel :=
  if name = "clip-ViT-B-32" ∨ name = "CLIP-ViT-B-32" ∨ name = "clip-vit-b-32" then
    ImageEmbeddingModel.ClipVitB32
  else
    ImageEmbeddingModel.ClipVitB32

/-- `serde_json::Value`. -/
inductive Json where
  | null : Json
  | bool : Bool → Json
  | num : Rat → Json
  | str : String → Json
  | arr : List Json → Json
  | obj : List (String × Json) → Json

/-- Object field lookup (first match in the association list). -/
def lookupField : List (String × Json) → String → Option Json
  | [], _ => none
  | (k, v) :: rest, key => if k = key then some v else lookupField rest key

/-- `serde_json::Map::insert`: overwrite the value at an existing key, else append. -/
def insertField : List (String × Json) → String → Json → List (String × Json)
  | [], key, v => [(key, v)]
  | (k, w) :: rest, key, v =>
    if k = key then (key, v) :: rest else (k, w) :: insertField rest key v

/-- `Value::get(key)`: `some` only on an object that has the key. -/
def Json.get : Json → String → Option Json
  | Json.obj fields, key => lookupField fields key
  | _, _ => none

/-- `Value::is_null`. -/
def Json.isNull : Json → Bool
  | Json.null => true
  | _ => false

/-- `Value::is_object`. -/
def Json.isObj : Json → Bool
  | Json.obj _ => true
  | _ => false

/-- Whether `Value::as_str` would return `Some`. -/
def Json.isString : Json → Bool
  | Json.str _ => true
  | _ => false

/-- `Value::as_str`: `Some` exactly on strings. -/
def Json.asStr : Json → Option String
  | Json.str s => some s
  | _ => none

/-- `if let Some(obj) = record.as_object_mut() then obj.insert(key, v)`:
write the field on an object, silently drop the write otherwise. -/
def Json.setField : Json → String → Json → Json
  | Json.obj fields, key, v => Json.obj (insertField fields key v)
  | j, _, _ => j

/-- The six-bit value of one standard-alphabet base64 symbol. -/
def b64Val (c : Char) : Option Nat :=
  if 'A' ≤ c ∧ c ≤ 'Z' then some (c.toNat - 65)
  else if 'a' ≤ c ∧ c ≤ 'z' then some (c.toNat - 97 + 26)
  else if '0' ≤ c ∧ c ≤ '9' then some (c.toNat - 48 + 52)
  else if c = '+' then some 62
  else if c = '/' then some 63
  else none

/-- Decode base64 quanta of four symbols, canonical padding required in the
last quantum, trailing bits required to be zero — the decode behaviour of
`base64::engine::general_purpose::STANDARD`. -/
def b64Quanta : List Char → Except String (List Nat)
  | [] => Except.ok []
  | a :: b :: c :: d :: rest =>
    match b64Val a, b64Val b with
    | some va, some vb =>
      if c = '=' then
        if d = '=' ∧ rest = [] then
          if vb % 16 = 0 then Except.ok [va * 4 + vb / 16]
          else Except.error "Invalid last symbol"
        else Except.error "Invalid padding"
      else
        match b64Val c with
        | some vc =>
          if d = '=' then
            if rest = [] then
              if vc % 4 = 0 then Except.ok [va * 4 + vb / 16, vb % 16 * 16 + vc / 4]
              else Except.error "Invalid last symbol"
            else Except.error "Invalid padding"
          else
            match b64Val d with
            | some vd =>
              match b64Quanta rest with
              | Except.ok tail =>
                Except.ok ((va * 4 + vb / 16) :: (vb % 16 * 16 + vc / 4) :: (vc % 4 * 64 + vd) :: tail)
              | Except.error e => Except.error e
            | none => Except.error "Invalid byte"
        | none => Except.error "Invalid byte"
    | _, _ => Except.error "Invalid byte"
  | _ => Except.error "Invalid input length"

/-- `base64::engine::general_purpose::STANDARD.decode` on a string's characters. -/
def base64_decode (s : String) : Except String (List Nat) :=
  b64Quanta s.data

/-- `FieldMapping` as consumed by the hook. -/
structure FieldMapping where
  source : String
  target : String
  field_type : String
  model : String

/-- The external encoder boundary. `getTextModel` / `getImageModel` stand for
`get_or_init_text_model` / `get_or_init_image_model` in the process state at
the call (result: a handle, or the init error already formatted by those
functions); `embedText` / `embedImage` stand for `TextEmbedding::embed` /
`ImageEmbedding::embed_bytes` on the locked handle. -/
structure EmbedOracle where
  getTextModel : String → Except String Nat
  embedText : Nat → List String → Except String (List (List Rat))
  getImageModel : String → Except String Nat
  embedImage : Nat → List (List Nat) → Except String (List (List Rat))

/-- `FastEmbedVectorHook::vectorize_text` (vectors.rs lines 173-187). -/
def vectorize_text (O : EmbedOracle) (text : String) (model : String) :
    Except String (List Rat) :=
  match O.getTextModel model with
  | Except.error e => Except.error e
  | Except.ok h =>
    match O.embedText h [text] with
    | Except.error e => Except.error ("Text embedding failed: " ++ e)
    | Except.ok embeddings =>
      match embeddings with
      | [] => Except.error "Text embedding returned empty result"
      | v :: _ => Except.ok v

/-- `FastEmbedVectorHook::vectorize_image` (vectors.rs lines 250-264). -/
def vectorize_image (O : EmbedOracle) (bytes : List Nat) (model : String) :
    Except String (List Rat) :=
  match O.getImageModel model with
  | Except.error e => Except.error e
  | Except.ok h =>
    match O.embedImage h [bytes] with
    | Except.error e => Except.error ("Image embedding failed: " ++ e)
    | Except.ok embeddings =>
      match embeddings with
      | [] => Except.error "Image embedding returned empty result"
      | v :: _ => Except.ok v

/-- The JSON value written into the target field: the vector as an array of numbers. -/
def embeddingJson (v : List Rat) : Json :=
  Json.arr (v.map Json.num)

/-- One iteration of the mapping loop of `vectorize_fields`
(vectors.rs lines 122-168): skip on missing or null source, image path
(base64 decode then image model), text path (default), then write the
vector to the target field. -/
def vectorize_one (O : EmbedOracle) (record : Json) (m : FieldMapping) :
    Except String Json :=
  match record.get m.source with
  | none => Except.ok record
  | some v =>
    if v.isNull then Except.ok record
    else if m.field_type = "image" then
      match v with
      | Json.str s =>
        match base64_decode s with
        | Except.error e =>
          Except.error ("Failed to decode base64 from '" ++ m.source ++ "': " ++ e)
        | Except.ok bytes =>
          match vectorize_image O bytes m.model with
          | Except.error e => Except.error e
          | Except.ok emb => Except.ok (record.setField m.target (embeddingJson emb))
      | _ => Except.error ("Image field '" ++ m.source ++ "' must be a base64 string")
    else
      match v with
      | Json.str s =>
        if s = "" then Except.ok record
        else
          match vectorize_text O s m.model with
          | Except.error e => Except.error e
          | Except.ok emb => Except.ok (record.setField m.target (embeddingJson emb))
      | _ => Except.error ("Text field '" ++ m.source ++ "' must be a string")

/-- `FastEmbedVectorHook::vectorize_fields` (vectors.rs lines 117-171):
fold `vectorize_one` over the mappings in order, propagating the first error. -/
def vectorize_fields (O : EmbedOracle) (record : Json) :
    List FieldMapping → Except String Json
  | [] => Except.ok record
  | m :: ms =>
    match vectorize_one O record m with
    | Except.error e => Except.error e
    | Except.ok r2 => vectorize_fields O r2 ms

/-- The `(index, text)` collection loop of `vectorize_fields_batch`
(vectors.rs lines 214-223): records whose source field is present and a
non-empty string, paired with their index (`i` is the index of the head). -/
def collectTexts (source : String) : List Json → Nat → List (Nat × String)
  | [], _ => []
  | r :: rs, i =>
    match (r.get source).bind Json.asStr with
    | some s =>
      if s = "" then collectTexts source rs (i + 1)
      else (i, s) :: collectTexts source rs (i + 1)
    | none => collectTexts source rs (i + 1)

/-- The per-record fallback of `vectorize_fields_batch` for mappings whose
`field_type` is neither `"text"` nor empty (vectors.rs lines 197-209): read
the source as a string, call `vectorize_text` on it, write the vector on
success and silently keep the record unchanged on any failure. -/
def fallback_one (O : EmbedOracle) (m : FieldMapping) (record : Json) : Json :=
  match (record.get m.source).bind Json.asStr with
  | some s =>
    if s = "" then record
    else
      match vectorize_text O s m.model with
      | Except.ok emb => record.setField m.target (embeddingJson emb)
      | Except.error _ => record
  | none => record

/-- The scatter loop of `vectorize_fields_batch` (vectors.rs lines 239-244):
for each collected index paired (by `zip`) with a returned embedding, write
the vector into that record's target field. -/
def scatter (target : String) : List Json → List (Nat × List Rat) → List Json
  | records, [] => records
  | records, (idx, emb) :: rest =>
    scatter target
      (records.set idx ((records.getD idx Json.null).setField target (embeddingJson emb)))
      rest

/-- One iteration of the mapping loop of `vectorize_fields_batch`
(vectors.rs lines 195-245): non-text mappings take the per-record fallback;
text mappings collect `(index, text)` pairs, skip the mapping when none,
else resolve the model, embed all texts in one call and scatter the results
back by index. -/
def batch_one (O : EmbedOracle) (records : List Json) (m : FieldMapping) :
    Except String (List Json) :=
  if m.field_type ≠ "text" ∧ m.field_type ≠ "" then
    Except.ok (records.map (fallback_one O m))
  else if (collectTexts m.source records 0).isEmpty then Except.ok records
  else
    match O.getTextModel m.model with
    | Except.error e => Except.error e
    | Except.ok h =>
      match O.embedText h ((collectTexts m.source records 0).map Prod.snd) with
      | Except.error e => Except.error ("Batch text embedding failed: " ++ e)
      | Except.ok embeddings =>
        Except.ok (scatter m.target records
          (((collectTexts m.source records 0).map Prod.fst).zip embeddings))

/-- `FastEmbedVectorHook::vectorize_fields_batch` (vectors.rs lines 189-248). -/
def vectorize_fields_batch (O : EmbedOracle) (records : List Json) :
    List FieldMapping → Except String (List Json)
  | [] => Except.ok records
  | m :: ms =>
    match batch_one O records m with
    | Except.error e => Except.error e
    | Except.ok rs2 => vectorize_fields_batch O rs2 ms

/-- A model cache (`DashMap<String, Arc<Mutex<...>>>`) as explicit state. -/
abbrev Cache (α : Type) := List (String × α)

/-- `DashMap::get`. -/
def cacheGet {α : Type} : Cache α → String → Option α
  | [], _ => none
  | (k, v) :: rest, key => if k = key then some v else cacheGet rest key

/-- `DashMap::insert` (overwrites an existing entry — last insert wins). -/
def cacheInsert {α : Type} : Cache α → String → α → Cache α
  | [], key, v => [(key, v)]
  | (k, w) :: rest, key, v =>
    if k = key then (key, v) :: rest else (k, w) :: cacheInsert rest key v

/-- `get_or_init_text_model` (vectors.rs lines 39-59) with the global cache
made an explicit argument and `fastembed::TextEmbedding::try_new` (with the
configured cache directory) the `construct` oracle. Returns the handle or
error, the cache after the call, and whether a construction was attempted. -/
def get_or_init_text_model {α : Type} (construct : EmbeddingModel → Except String α)
    (cache : Cache α) (model_name : String) : Except String α × Cache α × Bool :=
  match cacheGet cache model_name with
  | some h => (Except.ok h, cache, false)
  | none =>
    match construct (parse_text_model model_name) with
    | Except.ok m => (Except.ok m, cacheInsert cache model_name m, true)
    | Except.error e =>
      (Except.error ("Failed to init text model '" ++ model_name ++ "': " ++ e), cache, true)

/-- `get_or_init_image_model` (vectors.rs lines 61-81), symmetric to the text one. -/
def get_or_init_image_model {α : Type} (construct : ImageEmbeddingModel → Except String α)
    (cache : Cache α) (model_name : String) : Except String α × Cache α × Bool :=
  match cacheGet cache model_name with
  | some h => (Except.ok h, cache, false)
  | none =>
    match construct (parse_image_model model_name) with
    | Except.ok m => (Except.ok m, cacheInsert cache model_name m, true)
    | Except.error e =>
      (Except.error ("Failed to init image model '" ++ model_name ++ "': " ++ e), cache, true)

/-- A concrete encoder oracle for evaluations: every text embeds to the
vector `[1]`, every image to `[2]`, so an output shows which encoder ran. -/
def probeOracle : EmbedOracle where
  getTextModel := fun _ => Except.ok 0
  embedText := fun _ ts => Except.ok (ts.map (fun _ => [(1 : Rat)]))
  getImageModel := fun _ => Except.ok 1
  embedImage := fun _ bs => Except.ok (bs.map (fun _ => [(2 : Rat)]))

/-- A concrete oracle whose text encoder tags each submitted text with the
code of its first character, so distinct inputs give distinct vectors. -/
def headCharOracle : EmbedOracle where
  getTextModel := fun _ => Except.ok 0
  embedText := fun _ ts => Except.ok (ts.map (fun t => [((t.data.headD ' ').toNat : Rat)]))
  getImageModel := fun _ => Except.ok 1
  embedImage := fun _ bs => Except.ok (bs.map (fun _ => [(0 : Rat)]))

/-- A concrete oracle whose encoders always fail. -/
def failingOracle : EmbedOracle where
  getTextModel := fun _ => Except.ok 0
  embedText := fun _ _ => Except.error "backend down"
  getImageModel := fun _ => Except.ok 1
  embedImage := fun _ _ => Except.error "backend down"

/-- Inserting a key makes it present with the inserted value. -/
theorem cacheGet_cacheInsert_self {α : Type} (c : Cache α) (k : String) (v : α) :
    cacheGet (cacheInsert c k v) k = some v := by
  induction c with
  | nil => simp [cacheInsert, cacheGet]
  | cons p rest ih =>
    obtain ⟨k', w⟩ := p
    by_cases h : k' = k
    · simp [cacheInsert, h, cacheGet]
    · simp [cacheInsert, h, cacheGet, ih]

/-- C3: once a `get_or_init` call (text or image) has succeeded for an
identifier, every subsequent call with that identifier returns the same
handle, leaves the cache unchanged and attempts no construction (the
constructor of the later call — even a different one — is never consulted,
its attempted flag is `false`), and the cache holds exactly that handle
under the identifier. -/
theorem get_or_init_no_reconstruction {α β : Type}
    (ct ct₂ : EmbeddingModel → Except String α)
    (ci ci₂ : ImageEmbeddingModel → Except String β)
    (ctext : Cache α) (cimg : Cache β) (name : String) :
    (∀ h c₂ b, get_or_init_text_model ct ctext name = (Except.ok h, c₂, b) →
      get_or_init_text_model ct₂ c₂ name = (Except.ok h, c₂, false) ∧
        cacheGet c₂ name = some h) ∧
    (∀ h c₂ b, get_or_init_image_model ci cimg name = (Except.ok h, c₂, b) →
      get_or_init_image_model ci₂ c₂ name = (Except.ok h, c₂, false) ∧
        cacheGet c₂ name = some h) := by
  constructor
  · intro h c₂ b heq
    unfold get_or_init_text_model at heq
    cases hg : cacheGet ctext name with
    | some h0 =>
      rw [hg] at heq
      simp only [Prod.mk.injEq, Except.ok.injEq] at heq
      obtain ⟨h1, h2, h3⟩ := heq
      subst h2; subst h1
      refine ⟨?_, hg⟩
      unfold get_or_init_text_model
      rw [hg]
    | none =>
      rw [hg] at heq
      cases hc : ct (parse_text_model name) with
      | ok mdl =>
        rw [hc] at heq
        simp only [Prod.mk.injEq, Except.ok.injEq] at heq
        obtain ⟨h1, h2, h3⟩ := heq
        subst h2; subst h1
        have hself := cacheGet_cacheInsert_self ctext name mdl
        refine ⟨?_, hself⟩
        unfold get_or_init_text_model
        rw [hself]
      | error e =>
        rw [hc] at heq
        simp at heq
  · intro h c₂ b heq
    unfold get_or_init_image_model at heq
    cases hg : cacheGet cimg name with
    | some h0 =>
      rw [hg] at heq
      simp only [Prod.mk.injEq, Except.ok.injEq] at heq
      obtain ⟨h1, h2, h3⟩ := heq
      subst h2; subst h1
      refine ⟨?_, hg⟩
      unfold get_or_init_image_model
      rw [hg]
    | none =>
      rw [hg] at heq
      cases hc : ci (parse_image_model name) with
      | ok mdl =>
        rw [hc] at heq
        simp only [Prod.mk.injEq, Except.ok.injEq] at heq
        obtain ⟨h1, h2, h3⟩ := heq
        subst h2; subst h1
        have hself := cacheGet_cacheInsert_self cimg name mdl
        refine ⟨?_, hself⟩
        unfold get_or_init_image_model
        rw [hself]
      | error e =>
        rw [hc] at heq
        simp at heq

/-- Witness for C3: a first call on the empty cache constructs the handle 7
(resp. 5); the second call returns it unchanged with no construction, even
though its constructor would fail. -/
theorem get_or_init_no_reconstruction_witness :
    get_or_init_text_model (fun _ => Except.ok 7) ([] : Cache Nat) "bge-small-en-v1.5" =
      (Except.ok 7, [("bge-small-en-v1.5", 7)], true) ∧
    get_or_init_text_model (fun _ => Except.error "down") [("bge-small-en-v1.5", 7)]
        "bge-small-en-v1.5" = (Except.ok 7, [("bge-small-en-v1.5", 7)], false) ∧
    get_or_init_image_model (fun _ => Except.ok 5) ([] : Cache Nat) "clip-ViT-B-32" =
      (Except.ok 5, [("clip-ViT-B-32", 5)], true) ∧
    get_or_init_image_model (fun _ => Except.error "down") [("clip-ViT-B-32", 5)]
        "clip-ViT-B-32" = (Except.ok 5, [("clip-ViT-B-32", 5)], false) :=
  ⟨rfl,
    ((get_or_init_no_reconstruction (fun _ => Except.ok 7) (fun _ => Except.error "down")
        (fun _ => Except.ok 5) (fun _ => Except.error "down") [] [] "bge-small-en-v1.5").1
      7 [("bge-small-en-v1.5", 7)] true rfl).1,
    rfl,
    ((get_or_init_no_reconstruction (fun _ => Except.ok 7) (fun _ => Except.error "down")
        (fun _ => Except.ok 5) (fun _ => Except.error "down") [] [] "clip-ViT-B-32").2
      5 [("clip-ViT-B-32", 5)] true rfl).1⟩

/-- C4: when construction fails during a `get_or_init` call (text or image),
the call returns an error built from the identifier and the underlying
cause, the cache is returned unchanged (no entry inserted), and a
subsequent call with the same identifier attempts construction again (and
succeeds if the retried constructor does). -/
theorem get_or_init_failure_not_cached {α β : Type} (name e : String) :
    (∀ (ct : EmbeddingModel → Except String α) (cache : Cache α),
      cacheGet cache name = none →
      ct (parse_text_model name) = Except.error e →
      get_or_init_text_model ct cache name =
        (Except.error ("Failed to init text model '" ++ name ++ "': " ++ e), cache, true) ∧
      ∀ (ct₂ : EmbeddingModel → Except String α) (h : α),
        ct₂ (parse_text_model name) = Except.ok h →
        get_or_init_text_model ct₂ cache name = (Except.ok h, cacheInsert cache name h, true)) ∧
    (∀ (ci : ImageEmbeddingModel → Except String β) (cache : Cache β),
      cacheGet cache name = none →
      ci (parse_image_model name) = Except.error e →
      get_or_init_image_model ci cache name =
        (Except.error ("Failed to init image model '" ++ name ++ "': " ++ e), cache, true) ∧
      ∀ (ci₂ : ImageEmbeddingModel → Except String β) (h : β),
        ci₂ (parse_image_model name) = Except.ok h →
        get_or_init_image_model ci₂ cache name = (Except.ok h, cacheInsert cache name h, true)) := by
  constructor
  · intro ct cache hg hc
    refine ⟨?_, ?_⟩
    · unfold get_or_init_text_model
      rw [hg, hc]
    · intro ct₂ h hc₂
      unfold get_or_init_text_model
      rw [hg, hc₂]
  · intro ci cache hg hc
    refine ⟨?_, ?_⟩
    · unfold get_or_init_image_model
      rw [hg, hc]
    · intro ci₂ h hc₂
      unfold get_or_init_image_model
      rw [hg, hc₂]

/-- Witness for C4: on the empty cache, a failing constructor yields the
formatted error and leaves the cache empty; the retry with a succeeding
constructor inserts the handle. -/
theorem get_or_init_failure_not_cached_witness :
    cacheGet ([] : Cache Nat) "mdl" = none ∧
    (get_or_init_text_model (fun _ => (Except.error "boom" : Except String Nat)) [] "mdl" =
      (Except.error ("Failed to init text model '" ++ "mdl" ++ "': " ++ "boom"), [], true)) ∧
    (get_or_init_text_model (fun _ => (Except.ok 7 : Except String Nat)) [] "mdl" =
      (Except.ok 7, cacheInsert [] "mdl" 7, true)) ∧
    (get_or_init_image_model (fun _ => (Except.error "boom" : Except String Nat)) [] "mdl" =
      (Except.error ("Failed to init image model '" ++ "mdl" ++ "': " ++ "boom"), [], true)) ∧
    (get_or_init_image_model (fun _ => (Except.ok 5 : Except String Nat)) [] "mdl" =
      (Except.ok 5, cacheInsert [] "mdl" 5, true)) :=
  ⟨rfl,
    ((get_or_init_failure_not_cached (α := Nat) (β := Nat) "mdl" "boom").1
      (fun _ => Except.error "boom") [] rfl rfl).1,
    ((get_or_init_failure_not_cached (α := Nat) (β := Nat) "mdl" "boom").1
      (fun _ => Except.error "boom") [] rfl rfl).2 (fun _ => Except.ok 7) 7 rfl,
    ((get_or_init_failure_not_cached (α := Nat) (β := Nat) "mdl" "boom").2
      (fun _ => Except.error "boom") [] rfl rfl).1,
    ((get_or_init_failure_not_cached (α := Nat) (β := Nat) "mdl" "boom").2
      (fun _ => Except.error "boom") [] rfl rfl).2 (fun _ => Except.ok 5) 5 rfl⟩

/-- C8: `parse_text_model` is total by construction (a Lean function); on
any input that matches none of the eight known aliases it returns the same
fixed default kind as `parse_text_model "bge-small-en-v1.5"`, namely
`BGESmallENV15`, and never an error (the diagnostic is only a log line). -/
theorem parse_text_model_default_on_unknown (name : String)
    (h : name ∉ ["BAAI/bge-small-en-v1.5", "bge-small-en-v1.5", "BAAI/bge-base-en-v1.5",
      "bge-base-en-v1.5", "BAAI/bge-large-en-v1.5", "bge-large-en-v1.5",
      "sentence-transformers/all-MiniLM-L6-v2", "all-MiniLM-L6-v2"]) :
    parse_text_model name = parse_text_model "bge-small-en-v1.5" ∧
      parse_text_model "bge-small-en-v1.5" = EmbeddingModel.BGESmallENV15 := by
  simp only [List.mem_cons, List.not_mem_nil, or_false, not_or] at h
  obtain ⟨h1, h2, h3, h4, h5, h6, h7, h8⟩ := h
  refine ⟨?_, rfl⟩
  unfold parse_text_model
  simp [h1, h2, h3, h4, h5, h6, h7, h8]

/-- Witness for C8: the unknown name of the spec's test falls to the default. -/
theorem parse_text_model_default_on_unknown_witness :
    "totally-unknown-name" ∉ ["BAAI/bge-small-en-v1.5", "bge-small-en-v1.5",
      "BAAI/bge-base-en-v1.5", "bge-base-en-v1.5", "BAAI/bge-large-en-v1.5",
      "bge-large-en-v1.5", "sentence-transformers/all-MiniLM-L6-v2", "all-MiniLM-L6-v2"] ∧
    (parse_text_model "totally-unknown-name" = parse_text_model "bge-small-en-v1.5" ∧
      parse_text_model "bge-small-en-v1.5" = EmbeddingModel.BGESmallENV15) :=
  ⟨by decide, parse_text_model_default_on_unknown "totally-unknown-name" (by decide)⟩

/-- C6: a mapping whose source field is absent or null, or (off the image
path) present as the empty string, is skipped without error: the record is
returned unchanged and the result does not depend on the encoder oracle, so
no model is invoked. -/
theorem vectorize_fields_skips (O : EmbedOracle) (r : Json) (m : FieldMapping)
    (h : r.get m.source = none ∨ r.get m.source = some Json.null ∨
      (m.field_type ≠ "image" ∧ r.get m.source = some (Json.str ""))) :
    vectorize_one O r m = Except.ok r ∧ vectorize_fields O r [m] = Except.ok r := by
  have h1 : vectorize_one O r m = Except.ok r := by
    rcases h with h | h | ⟨hft, h⟩
    · simp [vectorize_one, h]
    · simp [vectorize_one, h, Json.isNull]
    · simp [vectorize_one, h, Json.isNull, hft]
  exact ⟨h1, by simp [vectorize_fields, h1]⟩

/-- Witness for C6: a record without the mapped source field passes through. -/
theorem vectorize_fields_skips_witness :
    (Json.obj [("a", Json.num 1)]).get "t" = none ∧
    (vectorize_one probeOracle (Json.obj [("a", Json.num 1)]) ⟨"t", "v", "text", "X"⟩ =
        Except.ok (Json.obj [("a", Json.num 1)]) ∧
      vectorize_fields probeOracle (Json.obj [("a", Json.num 1)]) [⟨"t", "v", "text", "X"⟩] =
        Except.ok (Json.obj [("a", Json.num 1)])) :=
  ⟨rfl, vectorize_fields_skips probeOracle (Json.obj [("a", Json.num 1)])
    ⟨"t", "v", "text", "X"⟩ (Or.inl rfl)⟩

/-- C5: `vectorize_fields` fails with an error naming the source field when
the source value is present, non-null and of the wrong shape: a non-string
on the text (default) path, a non-string on the image path, or a string the
base64 decoder rejects on the image path (that error also carrying the
decoder's cause). The call returns `Except.error`, so no target field is
written. -/
theorem vectorize_fields_wrong_shape_errors (O : EmbedOracle) (r : Json) (m : FieldMapping)
    (v : Json) (hv : r.get m.source = some v) (hnull : v.isNull = false) :
    (m.field_type ≠ "image" → v.isString = false →
      vectorize_fields O r [m] =
        Except.error ("Text field '" ++ m.source ++ "' must be a string")) ∧
    (m.field_type = "image" → v.isString = false →
      vectorize_fields O r [m] =
        Except.error ("Image field '" ++ m.source ++ "' must be a base64 string")) ∧
    (∀ s c, m.field_type = "image" → v = Json.str s → base64_decode s = Except.error c →
      vectorize_fields O r [m] =
        Except.error ("Failed to decode base64 from '" ++ m.source ++ "': " ++ c)) := by
  have hone : ∀ msg, vectorize_one O r m = Except.error msg →
      vectorize_fields O r [m] = Except.error msg := by
    intro msg hm
    simp [vectorize_fields, hm]
  refine ⟨?_, ?_, ?_⟩
  · intro hft hstr
    apply hone
    cases v with
    | null => simp [Json.isNull] at hnull
    | str s => simp [Json.isString] at hstr
    | bool b => simp [vectorize_one, hv, Json.isNull, hft]
    | num q => simp [vectorize_one, hv, Json.isNull, hft]
    | arr xs => simp [vectorize_one, hv, Json.isNull, hft]
    | obj fs => simp [vectorize_one, hv, Json.isNull, hft]
  · intro hft hstr
    apply hone
    cases v with
    | null => simp [Json.isNull] at hnull
    | str s => simp [Json.isString] at hstr
    | bool b => simp [vectorize_one, hv, Json.isNull, hft]
    | num q => simp [vectorize_one, hv, Json.isNull, hft]
    | arr xs => simp [vectorize_one, hv, Json.isNull, hft]
    | obj fs => simp [vectorize_one, hv, Json.isNull, hft]
  · intro s c hft hvs hdec
    subst hvs
    apply hone
    simp [vectorize_one, hv, Json.isNull, hft, hdec]

/-- Witness for C5: the spec's test cases — a number under a text mapping, a
number under an image mapping, and a non-base64 string under an image
mapping — each produce the corresponding field-naming error. -/
theorem vectorize_fields_wrong_shape_errors_witness :
    (Json.obj [("t", Json.num 1)]).get "t" = some (Json.num 1) ∧
    vectorize_fields probeOracle (Json.obj [("t", Json.num 1)]) [⟨"t", "v", "text", "X"⟩] =
      Except.error ("Text field '" ++ "t" ++ "' must be a string") ∧
    vectorize_fields probeOracle (Json.obj [("i", Json.num 1)]) [⟨"i", "v", "image", "Y"⟩] =
      Except.error ("Image field '" ++ "i" ++ "' must be a base64 string") ∧
    base64_decode "!!!" = Except.error "Invalid input length" ∧
    vectorize_fields probeOracle (Json.obj [("i", Json.str "!!!")]) [⟨"i", "v", "image", "Y"⟩] =
      Except.error ("Failed to decode base64 from '" ++ "i" ++ "': " ++ "Invalid input length") :=
  ⟨rfl,
    (vectorize_fields_wrong_shape_errors probeOracle (Json.obj [("t", Json.num 1)])
      ⟨"t", "v", "text", "X"⟩ (Json.num 1) rfl rfl).1 (by decide) rfl,
    (vectorize_fields_wrong_shape_errors probeOracle (Json.obj [("i", Json.num 1)])
      ⟨"i", "v", "image", "Y"⟩ (Json.num 1) rfl rfl).2.1 rfl rfl,
    rfl,
    (vectorize_fields_wrong_shape_errors probeOracle (Json.obj [("i", Json.str "!!!")])
      ⟨"i", "v", "image", "Y"⟩ (Json.str "!!!") rfl rfl).2.2 "!!!" "Invalid input length"
      rfl rfl rfl⟩

/-- C7: for a batch mapping whose `field_type` is non-empty and not
`"text"`, the whole-batch call always succeeds and equals the per-record
fallback mapped over all records; a record whose individual encoding fails
is simply left unchanged (target unset), while the other records are still
processed (the `map` form). -/
theorem batch_nontext_swallows_errors (O : EmbedOracle) (records : List Json) (m : FieldMapping)
    (h1 : m.field_type ≠ "text") (h2 : m.field_type ≠ "") :
    vectorize_fields_batch O records [m] = Except.ok (records.map (fallback_one O m)) ∧
    ∀ r s e, r.get m.source = some (Json.str s) → s ≠ "" →
      vectorize_text O s m.model = Except.error e → fallback_one O m r = r := by
  constructor
  · simp [vectorize_fields_batch, batch_one, h1, h2]
  · intro r s e hs hne herr
    simp [fallback_one, Json.asStr, hs, hne, herr]

/-- Witness for C7: with an always-failing encoder, a two-record batch under
an image mapping succeeds and returns both records unchanged. -/
theorem batch_nontext_swallows_errors_witness :
    ("image" : String) ≠ "text" ∧ ("image" : String) ≠ "" ∧
    vectorize_fields_batch failingOracle
        [Json.obj [("p", Json.str "x")], Json.obj [("p", Json.str "y")]]
        [⟨"p", "v", "image", "M"⟩] =
      Except.ok ([Json.obj [("p", Json.str "x")], Json.obj [("p", Json.str "y")]].map
        (fallback_one failingOracle ⟨"p", "v", "image", "M"⟩)) ∧
    [Json.obj [("p", Json.str "x")], Json.obj [("p", Json.str "y")]].map
        (fallback_one failingOracle ⟨"p", "v", "image", "M"⟩) =
      [Json.obj [("p", Json.str "x")], Json.obj [("p", Json.str "y")]] ∧
    fallback_one failingOracle ⟨"p", "v", "image", "M"⟩ (Json.obj [("p", Json.str "x")]) =
      Json.obj [("p", Json.str "x")] :=
  ⟨by decide, by decide,
    (batch_nontext_swallows_errors failingOracle
      [Json.obj [("p", Json.str "x")], Json.obj [("p", Json.str "y")]]
      ⟨"p", "v", "image", "M"⟩ (by decide) (by decide)).1,
    rfl,
    (batch_nontext_swallows_errors failingOracle
      [Json.obj [("p", Json.str "x")], Json.obj [("p", Json.str "y")]]
      ⟨"p", "v", "image", "M"⟩ (by decide) (by decide)).2
      (Json.obj [("p", Json.str "x")]) "x" ("Text embedding failed: " ++ "backend down")
      rfl (by decide) rfl⟩

/-- C1 is refuted by the code: in `vectorize_fields_batch` a mapping with
`field_type = "image"` does not base64-decode the source string and never
invokes the image model; the raw base64 string is passed to
`vectorize_text` (the text model). With `probeOracle`, which embeds every
text to `[1]` and every image to `[2]`, the batch call writes the text
vector `[1]`, while `vectorize_fields` on the same single record decodes
`"aGk="` to the bytes `[104, 105]` and writes the image vector `[2]`. -/
theorem vectorize_fields_batch_image_uses_text_model :
    vectorize_fields_batch probeOracle [Json.obj [("img", Json.str "aGk=")]]
        [⟨"img", "v", "image", "clip-ViT-B-32"⟩] =
      Except.ok [Json.obj [("img", Json.str "aGk="), ("v", Json.arr [Json.num 1])]] ∧
    vectorize_fields probeOracle (Json.obj [("img", Json.str "aGk=")])
        [⟨"img", "v", "image", "clip-ViT-B-32"⟩] =
      Except.ok (Json.obj [("img", Json.str "aGk="), ("v", Json.arr [Json.num 2])]) ∧
    base64_decode "aGk=" = Except.ok [104, 105] :=
  ⟨rfl, rfl, rfl⟩

/-- Inserting under one key leaves lookups of every other key unchanged. -/
theorem lookupField_insertField_ne (fs : List (String × Json)) (key k : String) (v : Json)
    (h : k ≠ key) : lookupField (insertField fs key v) k = lookupField fs k := by
  induction fs with
  | nil => simp [insertField, lookupField, Ne.symm h]
  | cons p rest ih =>
    obtain ⟨k', w⟩ := p
    by_cases hk : k' = key
    · subst hk
      simp [insertField, lookupField, Ne.symm h]
    · by_cases hkk : k' = k
      · simp [insertField, hk, lookupField, hkk, h]
      · simp [insertField, hk, lookupField, hkk, ih]

/-- Writing one field leaves every other field's lookup unchanged. -/
theorem Json.get_setField_ne (j : Json) (key k : String) (v : Json) (h : k ≠ key) :
    (j.setField key v).get k = j.get k := by
  cases j with
  | obj fields =>
    simp only [Json.setField, Json.get]
    exact lookupField_insertField_ne fields key k v h
  | null => rfl
  | bool b => rfl
  | num q => rfl
  | str s => rfl
  | arr xs => rfl

/-- One successful mapping application only touches the mapping's target field. -/
theorem vectorize_one_frame (O : EmbedOracle) (r r' : Json) (m : FieldMapping)
    (hok : vectorize_one O r m = Except.ok r') (k : String) (hk : k ≠ m.target) :
    r'.get k = r.get k := by
  unfold vectorize_one at hok
  split at hok
  · cases hok; rfl
  · split at hok
    · cases hok; rfl
    · split at hok
      · split at hok
        · split at hok
          · cases hok
          · split at hok
            · cases hok
            · cases hok
              exact Json.get_setField_ne r m.target k _ hk
        · cases hok
      · split at hok
        · split at hok
          · cases hok; rfl
          · split at hok
            · cases hok
            · cases hok
              exact Json.get_setField_ne r m.target k _ hk
        · cases hok

/-- C9: a successful `vectorize_fields` call leaves every field whose name
is not some mapping's target unchanged — its lookup in the output record
equals its lookup in the input record; only target fields are written. -/
theorem vectorize_fields_frame (O : EmbedOracle) (r out : Json) (ms : List FieldMapping)
    (hok : vectorize_fields O r ms = Except.ok out) (k : String)
    (hk : k ∉ ms.map FieldMapping.target) :
    out.get k = r.get k := by
  induction ms generalizing r with
  | nil =>
    simp only [vectorize_fields] at hok
    cases hok
    rfl
  | cons m rest ih =>
    simp only [List.map_cons, List.mem_cons, not_or] at hk
    obtain ⟨hk1, hk2⟩ := hk
    unfold vectorize_fields at hok
    cases h1 : vectorize_one O r m with
    | error e =>
      rw [h1] at hok
      cases hok
    | ok r2 =>
      rw [h1] at hok
      rw [ih r2 hok hk2]
      exact vectorize_one_frame O r r2 m h1 k hk1

/-- Witness for C9: after vectorizing the `"t"` field into `"v"`, the
untouched `"keep"` field reads back exactly as in the input. -/
theorem vectorize_fields_frame_witness :
    vectorize_fields probeOracle (Json.obj [("t", Json.str "a"), ("keep", Json.num 5)])
        [⟨"t", "v", "text", "X"⟩] =
      Except.ok (Json.obj [("t", Json.str "a"), ("keep", Json.num 5),
        ("v", Json.arr [Json.num 1])]) ∧
    "keep" ∉ [FieldMapping.mk "t" "v" "text" "X"].map FieldMapping.target ∧
    (Json.obj [("t", Json.str "a"), ("keep", Json.num 5),
        ("v", Json.arr [Json.num 1])]).get "keep" =
      (Json.obj [("t", Json.str "a"), ("keep", Json.num 5)]).get "keep" :=
  ⟨rfl, by decide,
    vectorize_fields_frame probeOracle (Json.obj [("t", Json.str "a"), ("keep", Json.num 5)])
      (Json.obj [("t", Json.str "a"), ("keep", Json.num 5), ("v", Json.arr [Json.num 1])])
      [⟨"t", "v", "text", "X"⟩] rfl "keep" (by decide)⟩

/-- A non-object record makes every mapping of `vectorize_fields` skip:
its source lookup is `none`. -/
theorem vectorize_one_non_object (O : EmbedOracle) (r : Json) (m : FieldMapping)
    (h : r.isObj = false) : vectorize_one O r m = Except.ok r := by
  cases r with
  | obj fields => simp [Json.isObj] at h
  | null => rfl
  | bool b => rfl
  | num q => rfl
  | str s => rfl
  | arr xs => rfl

/-- Folding the mappings over a non-object record is the identity. -/
theorem vectorize_fields_non_object (O : EmbedOracle) (r : Json) (h : r.isObj = false)
    (ms : List FieldMapping) : vectorize_fields O r ms = Except.ok r := by
  induction ms with
  | nil => rfl
  | cons m rest ih =>
    unfold vectorize_fields
    rw [vectorize_one_non_object O r m h]
    exact ih

/-- Writing a field on a non-object value is dropped. -/
theorem setField_non_object (r : Json) (h : r.isObj = false) (k : String) (v : Json) :
    r.setField k v = r := by
  cases r with
  | obj fields => simp [Json.isObj] at h
  | null => rfl
  | bool b => rfl
  | num q => rfl
  | str s => rfl
  | arr xs => rfl

/-- The batch per-record fallback leaves a non-object record unchanged. -/
theorem fallback_one_non_object (O : EmbedOracle) (m : FieldMapping) (r : Json)
    (h : r.isObj = false) : fallback_one O m r = r := by
  cases r with
  | obj fields => simp [Json.isObj] at h
  | null => rfl
  | bool b => rfl
  | num q => rfl
  | str s => rfl
  | arr xs => rfl

/-- The scatter loop preserves every non-object entry of the record list. -/
theorem scatter_non_object (t : String) (l : List (Nat × List Rat))
    (records : List Json) (i : Nat) (r : Json) (h : r.isObj = false)
    (hi : records[i]? = some r) : (scatter t records l)[i]? = some r := by
  induction l generalizing records with
  | nil => simpa [scatter] using hi
  | cons p rest ih =>
    obtain ⟨idx, emb⟩ := p
    unfold scatter
    apply ih
    by_cases hidx : idx = i
    · subst hidx
      have hlen : idx < records.length := by
        rcases List.getElem?_eq_some_iff.mp hi with ⟨hl, _⟩
        exact hl
      have hg : records.getD idx Json.null = r := by
        simp [List.getD_eq_getElem?_getD, hi]
      rw [hg, setField_non_object r h, List.getElem?_set_self hlen]
    · rw [List.getElem?_set_ne hidx]
      exact hi

/-- One batch mapping pass preserves every non-object record. -/
theorem batch_one_non_object (O : EmbedOracle) (records out : List Json) (m : FieldMapping)
    (hok : batch_one O records m = Except.ok out) (i : Nat) (r : Json)
    (h : r.isObj = false) (hi : records[i]? = some r) : out[i]? = some r := by
  unfold batch_one at hok
  split at hok
  · cases hok
    rw [List.getElem?_map, hi]
    simp [fallback_one_non_object O m r h]
  · split at hok
    · cases hok
      exact hi
    · split at hok
      · cases hok
      · split at hok
        · cases hok
        · cases hok
          exact scatter_non_object _ _ records i r h hi

/-- The whole batch call preserves every non-object record. -/
theorem vectorize_fields_batch_non_object (O : EmbedOracle) (records out : List Json)
    (ms : List FieldMapping) (hok : vectorize_fields_batch O records ms = Except.ok out)
    (i : Nat) (r : Json) (h : r.isObj = false) (hi : records[i]? = some r) :
    out[i]? = some r := by
  induction ms generalizing records with
  | nil =>
    simp only [vectorize_fields_batch] at hok
    cases hok
    exact hi
  | cons m rest ih =>
    unfold vectorize_fields_batch at hok
    cases h1 : batch_one O records m with
    | error e =>
      rw [h1] at hok
      cases hok
    | ok rs2 =>
      rw [h1] at hok
      exact ih rs2 hok (batch_one_non_object O records rs2 m h1 i r h hi)

/-- C10: a record that is not a JSON object passes through unchanged and
without error: `vectorize_fields` returns it as-is for every oracle and
mapping list (every source lookup is `none`, so every mapping skips and
every write is dropped), and in a successful `vectorize_fields_batch` call
every non-object record of the input reappears unchanged at its index. -/
theorem vectorize_non_object_passthrough (r : Json) (hr : r.isObj = false) :
    (∀ (O : EmbedOracle) (ms : List FieldMapping),
      vectorize_fields O r ms = Except.ok r) ∧
    (∀ (O : EmbedOracle) (records out : List Json) (ms : List FieldMapping) (i : Nat),
      vectorize_fields_batch O records ms = Except.ok out → records[i]? = some r →
      out[i]? = some r) := by
  constructor
  · intro O ms
    exact vectorize_fields_non_object O r hr ms
  · intro O records out ms i hok hi
    exact vectorize_fields_batch_non_object O records out ms hok i r hr hi

/-- Witness for C10: an array record passes through `vectorize_fields`
untouched, and stays untouched at index 0 of a batch whose other (object)
record does get its target written. -/
theorem vectorize_non_object_passthrough_witness :
    (Json.arr [Json.num 1]).isObj = false ∧
    vectorize_fields probeOracle (Json.arr [Json.num 1]) [⟨"t", "v", "text", "X"⟩] =
      Except.ok (Json.arr [Json.num 1]) ∧
    vectorize_fields_batch probeOracle [Json.arr [Json.num 1], Json.obj [("t", Json.str "a")]]
        [⟨"t", "v", "text", "X"⟩] =
      Except.ok [Json.arr [Json.num 1],
        Json.obj [("t", Json.str "a"), ("v", Json.arr [Json.num 1])]] ∧
    [Json.arr [Json.num 1],
        Json.obj [("t", Json.str "a"), ("v", Json.arr [Json.num 1])]][0]? =
      some (Json.arr [Json.num 1]) :=
  ⟨rfl,
    (vectorize_non_object_passthrough (Json.arr [Json.num 1]) rfl).1 probeOracle
      [⟨"t", "v", "text", "X"⟩],
    rfl,
    (vectorize_non_object_passthrough (Json.arr [Json.num 1]) rfl).2 probeOracle
      [Json.arr [Json.num 1], Json.obj [("t", Json.str "a")]]
      [Json.arr [Json.num 1], Json.obj [("t", Json.str "a"), ("v", Json.arr [Json.num 1])]]
      [⟨"t", "v", "text", "X"⟩] 0 rfl rfl⟩

/-- `as_str` through an optional value succeeds exactly on a string value. -/
theorem bind_asStr_eq_some (o : Option Json) (s : String) :
    o.bind Json.asStr = some s ↔ o = some (Json.str s) := by
  cases o with
  | none => simp
  | some v => cases v <;> simp [Json.asStr]

/-- Collecting from a start index one higher shifts every recorded index by one. -/
theorem collectTexts_shift (source : String) (rs : List Json) :
    ∀ n, collectTexts source rs (n + 1) =
      (collectTexts source rs n).map (fun p => (p.1 + 1, p.2)) := by
  induction rs with
  | nil => intro n; simp [collectTexts]
  | cons r rest ih =>
    intro n
    cases hr : (r.get source).bind Json.asStr with
    | none =>
      simp only [collectTexts, hr]
      exact ih (n + 1)
    | some s0 =>
      by_cases hs0 : s0 = ""
      · simp only [collectTexts, hr, if_pos hs0]
        exact ih (n + 1)
      · simp only [collectTexts, hr, if_neg hs0, List.map_cons]
        rw [ih (n + 1)]

/-- Every index recorded by the collection loop is at least the start index. -/
theorem collectTexts_fst_ge (source : String) (rs : List Json) :
    ∀ n p, p ∈ collectTexts source rs n → n ≤ p.1 := by
  induction rs with
  | nil =>
    intro n p hp
    simp [collectTexts] at hp
  | cons r rest ih =>
    intro n p hp
    cases hr : (r.get source).bind Json.asStr with
    | none =>
      rw [show collectTexts source (r :: rest) n = collectTexts source rest (n + 1) from by
        simp [collectTexts, hr]] at hp
      exact Nat.le_of_succ_le (ih (n + 1) p hp)
    | some s0 =>
      by_cases hs0 : s0 = ""
      · rw [show collectTexts source (r :: rest) n = collectTexts source rest (n + 1) from by
          simp [collectTexts, hr, hs0]] at hp
        exact Nat.le_of_succ_le (ih (n + 1) p hp)
      · rw [show collectTexts source (r :: rest) n =
            (n, s0) :: collectTexts source rest (n + 1) from by
          simp [collectTexts, hr, hs0]] at hp
        rcases List.mem_cons.mp hp with h | h
        · subst h
          exact Nat.le_refl n
        · exact Nat.le_of_succ_le (ih (n + 1) p h)

/-- The recorded indices appear in strictly increasing (original record) order. -/
theorem collectTexts_index_sorted (source : String) (rs : List Json) :
    ∀ n, List.Pairwise (fun a b => a < b) ((collectTexts source rs n).map Prod.fst) := by
  induction rs with
  | nil => intro n; simp [collectTexts]
  | cons r rest ih =>
    intro n
    cases hr : (r.get source).bind Json.asStr with
    | none =>
      rw [show collectTexts source (r :: rest) n = collectTexts source rest (n + 1) from by
        simp [collectTexts, hr]]
      exact ih (n + 1)
    | some s0 =>
      by_cases hs0 : s0 = ""
      · rw [show collectTexts source (r :: rest) n = collectTexts source rest (n + 1) from by
          simp [collectTexts, hr, hs0]]
        exact ih (n + 1)
      · rw [show collectTexts source (r :: rest) n =
            (n, s0) :: collectTexts source rest (n + 1) from by
          simp [collectTexts, hr, hs0]]
        rw [List.map_cons]
        refine List.Pairwise.cons ?_ (ih (n + 1))
        intro a ha
        rcases List.mem_map.mp ha with ⟨p, hp, hpa⟩
        have hge := collectTexts_fst_ge source rest (n + 1) p hp
        subst hpa
        omega

/-- The collection loop records `(index, text)` exactly for the records whose
source field is present and a non-empty string. -/
theorem collectTexts_mem (source : String) (rs : List Json) :
    ∀ i s, (i, s) ∈ collectTexts source rs 0 ↔
      ∃ r, rs[i]? = some r ∧ r.get source = some (Json.str s) ∧ s ≠ "" := by
  induction rs with
  | nil =>
    intro i s
    simp [collectTexts]
  | cons r rest ih =>
    intro i s
    have hmap0 : ∀ s', ((0 : Nat), s') ∉
        (collectTexts source rest 0).map (fun p => (p.1 + 1, p.2)) := by
      intro s' hmem
      rcases List.mem_map.mp hmem with ⟨p, _, heq⟩
      exact Nat.succ_ne_zero p.1 (congrArg Prod.fst heq)
    have hmaps : ∀ j s', (j + 1, s') ∈
        (collectTexts source rest 0).map (fun p => (p.1 + 1, p.2)) ↔
        (j, s') ∈ collectTexts source rest 0 := by
      intro j s'
      constructor
      · intro hmem
        rcases List.mem_map.mp hmem with ⟨⟨a, b⟩, hab, heq⟩
        have h1 : a = j := Nat.succ_injective (congrArg Prod.fst heq)
        have h2 : b = s' := congrArg Prod.snd heq
        subst h1
        subst h2
        exact hab
      · intro hmem
        exact List.mem_map.mpr ⟨(j, s'), hmem, rfl⟩
    cases hr : (r.get source).bind Json.asStr with
    | none =>
      rw [show collectTexts source (r :: rest) 0 = collectTexts source rest 1 from by
        simp [collectTexts, hr], collectTexts_shift source rest 0]
      cases i with
      | zero =>
        constructor
        · intro hmem
          exact absurd hmem (hmap0 s)
        · rintro ⟨r', hr', hget, hne⟩
          simp only [List.getElem?_cons_zero, Option.some.injEq] at hr'
          subst hr'
          rw [(bind_asStr_eq_some (r.get source) s).mpr hget] at hr
          cases hr
      | succ j =>
        rw [hmaps j s, List.getElem?_cons_succ]
        exact ih j s
    | some s0 =>
      by_cases hs0 : s0 = ""
      · subst hs0
        rw [show collectTexts source (r :: rest) 0 = collectTexts source rest 1 from by
          simp [collectTexts, hr], collectTexts_shift source rest 0]
        cases i with
        | zero =>
          constructor
          · intro hmem
            exact absurd hmem (hmap0 s)
          · rintro ⟨r', hr', hget, hne⟩
            simp only [List.getElem?_cons_zero, Option.some.injEq] at hr'
            subst hr'
            rw [(bind_asStr_eq_some (r.get source) s).mpr hget] at hr
            cases hr
            exact (hne rfl).elim
        | succ j =>
          rw [hmaps j s, List.getElem?_cons_succ]
          exact ih j s
      · rw [show collectTexts source (r :: rest) 0 =
            (0, s0) :: collectTexts source rest 1 from by
          simp [collectTexts, hr, hs0], collectTexts_shift source rest 0]
        cases i with
        | zero =>
          simp only [List.mem_cons, List.getElem?_cons_zero, Option.some.injEq]
          constructor
          · rintro (heq | hmem)
            · have h2 : s = s0 := congrArg Prod.snd heq
              subst h2
              exact ⟨r, rfl, (bind_asStr_eq_some (r.get source) s).mp hr, hs0⟩
            · exact absurd hmem (hmap0 s)
          · rintro ⟨r', hr', hget, hne⟩
            subst hr'
            left
            rw [(bind_asStr_eq_some (r.get source) s).mpr hget] at hr
            cases hr
            rfl
        | succ j =>
          simp only [List.mem_cons, List.getElem?_cons_succ]
          constructor
          · rintro (heq | hmem)
            · exact absurd (congrArg Prod.fst heq) (Nat.succ_ne_zero j)
            · exact (ih j s).mp ((hmaps j s).mp hmem)
          · intro hex
            exact Or.inr ((hmaps j s).mpr ((ih j s).mpr hex))

/-- The scatter loop never changes the number of records. -/
theorem scatter_length (t : String) (l : List (Nat × List Rat)) :
    ∀ records : List Json, (scatter t records l).length = records.length := by
  induction l with
  | nil => intro records; simp [scatter]
  | cons p rest ih =>
    intro records
    obtain ⟨idx, emb⟩ := p
    unfold scatter
    rw [ih]
    exact List.length_set records idx _

/-- The scatter loop leaves records at unwritten indices unchanged. -/
theorem scatter_getElem?_not_mem (t : String) (l : List (Nat × List Rat)) (i : Nat) :
    ∀ records : List Json, i ∉ l.map Prod.fst →
      (scatter t records l)[i]? = records[i]? := by
  induction l with
  | nil => intro records _; simp [scatter]
  | cons p rest ih =>
    intro records hi
    obtain ⟨idx, emb⟩ := p
    simp only [List.map_cons, List.mem_cons, not_or] at hi
    obtain ⟨hi1, hi2⟩ := hi
    unfold scatter
    rw [ih _ hi2]
    exact List.getElem?_set_ne (Ne.symm hi1)

/-- When the written indices are pairwise distinct and in bounds, the record
at the index recorded in position `k` ends up with exactly the `k`-th
embedding written into the target field. -/
theorem scatter_getElem?_write (t : String) (l : List (Nat × List Rat)) :
    ∀ (records : List Json) (k idx : Nat) (emb : List Rat),
      List.Pairwise (fun a b => a ≠ b) (l.map Prod.fst) →
      (∀ p ∈ l, p.1 < records.length) →
      l[k]? = some (idx, emb) →
      (scatter t records l)[idx]? =
        some ((records.getD idx Json.null).setField t (embeddingJson emb)) := by
  induction l with
  | nil =>
    intro records k idx emb _ _ hk
    simp at hk
  | cons p rest ih =>
    intro records k idx emb hnd hlt hk
    obtain ⟨idx0, emb0⟩ := p
    simp only [List.map_cons, List.pairwise_cons] at hnd
    obtain ⟨hnd1, hnd2⟩ := hnd
    unfold scatter
    cases k with
    | zero =>
      simp only [List.getElem?_cons_zero, Option.some.injEq] at hk
      have h1 : idx0 = idx := congrArg Prod.fst hk
      have h2 : emb0 = emb := congrArg Prod.snd hk
      subst h1
      subst h2
      have hnotmem : idx0 ∉ rest.map Prod.fst := fun hmem => hnd1 idx0 hmem rfl
      rw [scatter_getElem?_not_mem t rest idx0 _ hnotmem]
      have hlen : idx0 < records.length := hlt (idx0, emb0) (List.mem_cons_self _ _)
      exact List.getElem?_set_self hlen
    | succ k2 =>
      simp only [List.getElem?_cons_succ] at hk
      have hmemidx : idx ∈ rest.map Prod.fst :=
        List.mem_map.mpr ⟨(idx, emb), List.getElem?_mem hk, rfl⟩
      have hne0 : idx0 ≠ idx := hnd1 idx hmemidx
      have hlt2 : ∀ p ∈ rest,
          p.1 < (records.set idx0 ((records.getD idx0 Json.null).setField t
            (embeddingJson emb0))).length := by
        intro p hp
        rw [List.length_set]
        exact hlt p (List.mem_cons_of_mem _ hp)
      rw [ih (records.set idx0 ((records.getD idx0 Json.null).setField t
        (embeddingJson emb0))) k2 idx emb hnd2 hlt2 hk]
      have hget : (records.set idx0 ((records.getD idx0 Json.null).setField t
          (embeddingJson emb0))).getD idx Json.null = records.getD idx Json.null := by
        simp [List.getD_eq_getElem?_getD, List.getElem?_set_ne hne0]
      rw [hget]

/-- C2: for a batch mapping whose `field_type` is `"text"` or empty, with a
non-empty collection, `vectorize_fields_batch` collects `(index, text)`
pairs exactly for the records whose source field is present and a non-empty
string, in strictly increasing record order; submits exactly the collected
texts in the one `embedText` call; succeeds; and — when the encoder honours
the length invariant — writes the `k`-th returned vector into the target
field of the record whose index was recorded `k`-th, while every record
with no recorded index (source absent, null, non-string or empty) is
returned unchanged, with no error. -/
theorem vectorize_fields_batch_text_scatter (O : EmbedOracle) (records : List Json)
    (m : FieldMapping) (hft : m.field_type = "text" ∨ m.field_type = "")
    (hne : collectTexts m.source records 0 ≠ [])
    (hdl : Nat) (vs : List (List Rat))
    (hm : O.getTextModel m.model = Except.ok hdl)
    (hemb : O.embedText hdl ((collectTexts m.source records 0).map Prod.snd) = Except.ok vs)
    (hlen : vs.length = (collectTexts m.source records 0).length) :
    ∃ out, vectorize_fields_batch O records [m] = Except.ok out ∧
      out.length = records.length ∧
      (∀ i s, (i, s) ∈ collectTexts m.source records 0 ↔
        ∃ r, records[i]? = some r ∧ r.get m.source = some (Json.str s) ∧ s ≠ "") ∧
      List.Pairwise (fun a b => a < b) ((collectTexts m.source records 0).map Prod.fst) ∧
      (∀ (k i : Nat) (s : String) (r : Json),
        (collectTexts m.source records 0)[k]? = some (i, s) →
        records[i]? = some r →
        out[i]? = some (r.setField m.target (embeddingJson (vs.getD k [])))) ∧
      (∀ i, i ∉ (collectTexts m.source records 0).map Prod.fst →
        out[i]? = records[i]?) := by
  have hle : ((collectTexts m.source records 0).map Prod.fst).length ≤ vs.length := by
    simp [List.length_map, hlen]
  have hcond : ¬(m.field_type ≠ "text" ∧ m.field_type ≠ "") := by
    rcases hft with h | h <;> simp [h]
  have hempty : ¬((collectTexts m.source records 0).isEmpty = true) := by
    intro hcontra
    exact hne (List.isEmpty_iff.mp hcontra)
  have hmapfst : (((collectTexts m.source records 0).map Prod.fst).zip vs).map Prod.fst =
      (collectTexts m.source records 0).map Prod.fst :=
    List.map_fst_zip _ _ hle
  have hbound : ∀ p ∈ ((collectTexts m.source records 0).map Prod.fst).zip vs,
      p.1 < records.length := by
    intro p hp
    have hmem : p.1 ∈ (((collectTexts m.source records 0).map Prod.fst).zip vs).map
        Prod.fst := List.mem_map.mpr ⟨p, hp, rfl⟩
    rw [hmapfst] at hmem
    rcases List.mem_map.mp hmem with ⟨⟨i2, s2⟩, hmem2, heq2⟩
    rcases (collectTexts_mem m.source records i2 s2).mp hmem2 with ⟨r2, hr2, _, _⟩
    have hlt2 := (List.getElem?_eq_some_iff.mp hr2).1
    rw [← heq2]
    exact hlt2
  have hbatch : batch_one O records m =
      Except.ok (scatter m.target records
        (((collectTexts m.source records 0).map Prod.fst).zip vs)) := by
    simp only [batch_one, if_neg hcond, if_neg hempty, hm, hemb]
  refine ⟨scatter m.target records
      (((collectTexts m.source records 0).map Prod.fst).zip vs), ?_, ?_, ?_, ?_, ?_, ?_⟩
  · unfold vectorize_fields_batch
    rw [hbatch]
    rfl
  · exact scatter_length _ _ records
  · exact collectTexts_mem m.source records
  · exact collectTexts_index_sorted m.source records 0
  · intro k i s r hk hr
    have hkp : k < (collectTexts m.source records 0).length :=
      (List.getElem?_eq_some_iff.mp hk).1
    have hkv : k < vs.length := by
      rw [hlen]
      exact hkp
    have h1 : ((collectTexts m.source records 0).map Prod.fst)[k]? = some i := by
      rw [List.getElem?_map, hk]
      rfl
    have h2 : vs[k]? = some (vs.getD k []) := by
      have hg : vs.getD k [] = vs[k] := by
        simp [List.getD_eq_getElem?_getD, List.getElem?_eq_getElem hkv]
      rw [hg]
      exact List.getElem?_eq_getElem hkv
    have hzipk : (((collectTexts m.source records 0).map Prod.fst).zip vs)[k]? =
        some (i, vs.getD k []) :=
      List.getElem?_zip_eq_some.mpr ⟨h1, h2⟩
    have hnd : List.Pairwise (fun a b => a ≠ b)
        ((((collectTexts m.source records 0).map Prod.fst).zip vs).map Prod.fst) := by
      rw [hmapfst]
      exact (collectTexts_index_sorted m.source records 0).imp (fun hab => Nat.ne_of_lt hab)
    have hw := scatter_getElem?_write m.target
      (((collectTexts m.source records 0).map Prod.fst).zip vs) records k i
      (vs.getD k []) hnd hbound hzipk
    rw [hw]
    have hg2 : records.getD i Json.null = r := by
      simp [List.getD_eq_getElem?_getD, hr]
    rw [hg2]
  · intro i hi
    apply scatter_getElem?_not_mem
    rw [hmapfst]
    exact hi

/-- Witness for C2: the spec's batch-scatter test — records
`[{"t":"a"}, {"t":""}, {"t":"b"}]` — with the oracle that tags each text by
its first character code: the pairs `(0, "a")` and `(2, "b")` are collected,
both texts go into the one encode call, and the vectors `[97]` and `[98]`
land on records 0 and 2 while record 1 passes through unchanged. -/
theorem vectorize_fields_batch_text_scatter_witness :
    collectTexts "t" [Json.obj [("t", Json.str "a")], Json.obj [("t", Json.str "")],
      Json.obj [("t", Json.str "b")]] 0 ≠ [] ∧
    headCharOracle.getTextModel "X" = Except.ok 0 ∧
    headCharOracle.embedText 0 ((collectTexts "t" [Json.obj [("t", Json.str "a")],
        Json.obj [("t", Json.str "")], Json.obj [("t", Json.str "b")]] 0).map Prod.snd) =
      Except.ok [[((97 : Nat) : Rat)], [((98 : Nat) : Rat)]] ∧
    ([[((97 : Nat) : Rat)], [((98 : Nat) : Rat)]] : List (List Rat)).length =
      (collectTexts "t" [Json.obj [("t", Json.str "a")], Json.obj [("t", Json.str "")],
        Json.obj [("t", Json.str "b")]] 0).length ∧
    (∃ out, vectorize_fields_batch headCharOracle [Json.obj [("t", Json.str "a")],
          Json.obj [("t", Json.str "")], Json.obj [("t", Json.str "b")]]
          [⟨"t", "v", "text", "X"⟩] = Except.ok out ∧
      out.length = ([Json.obj [("t", Json.str "a")], Json.obj [("t", Json.str "")],
        Json.obj [("t", Json.str "b")]] : List Json).length ∧
      (∀ i s, (i, s) ∈ collectTexts "t" [Json.obj [("t", Json.str "a")],
          Json.obj [("t", Json.str "")], Json.obj [("t", Json.str "b")]] 0 ↔
        ∃ r, ([Json.obj [("t", Json.str "a")], Json.obj [("t", Json.str "")],
            Json.obj [("t", Json.str "b")]] : List Json)[i]? = some r ∧
          r.get "t" = some (Json.str s) ∧ s ≠ "") ∧
      List.Pairwise (fun a b => a < b) ((collectTexts "t" [Json.obj [("t", Json.str "a")],
        Json.obj [("t", Json.str "")], Json.obj [("t", Json.str "b")]] 0).map Prod.fst) ∧
      (∀ (k i : Nat) (s : String) (r : Json),
        (collectTexts "t" [Json.obj [("t", Json.str "a")], Json.obj [("t", Json.str "")],
          Json.obj [("t", Json.str "b")]] 0)[k]? = some (i, s) →
        ([Json.obj [("t", Json.str "a")], Json.obj [("t", Json.str "")],
          Json.obj [("t", Json.str "b")]] : List Json)[i]? = some r →
        out[i]? = some (r.setField "v" (embeddingJson
          (([[((97 : Nat) : Rat)], [((98 : Nat) : Rat)]] : List (List Rat)).getD k [])))) ∧
      (∀ i, i ∉ (collectTexts "t" [Json.obj [("t", Json.str "a")],
          Json.obj [("t", Json.str "")], Json.obj [("t", Json.str "b")]] 0).map Prod.fst →
        out[i]? = ([Json.obj [("t", Json.str "a")], Json.obj [("t", Json.str "")],
          Json.obj [("t", Json.str "b")]] : List Json)[i]?)) :=
  ⟨by decide, rfl, rfl, rfl,
    vectorize_fields_batch_text_scatter headCharOracle
      [Json.obj [("t", Json.str "a")], Json.obj [("t", Json.str "")],
        Json.obj [("t", Json.str "b")]]
      ⟨"t", "v", "text", "X"⟩ (Or.inl rfl) (by decide) 0
      [[((97 : Nat) : Rat)], [((98 : Nat) : Rat)]] rfl rfl rfl⟩
